import Mathlib

/-!
Verification of the itinerary generation core of the AI-Travel-Itinerary
repository (src/services/ItineraryGenerator.ts).

The development shallowly embeds the generator:

* JavaScript string primitives used by the service (trim, toLowerCase,
  includes, startsWith/endsWith) are modelled character-exactly for the
  ASCII range on `List Char`.  All patterns the service matches against are
  ASCII, so the Unicode-specific parts of the JS semantics are irrelevant.
* The model-cascade of `generateItinerary` (lines 54-99) is embedded as a
  fueled recursion over an abstract model client
  `oracle : String → Nat → Outcome α` (the per-model, per-attempt result of
  `generateWithTimeout`), recording a trace of model invocations and
  backoff sleeps.
* The zod schemas (lines 21-43), the post-parse sorting and the
  duration check of `callGeminiAPI` (lines 146-156) are embedded over typed
  records, and `parseAIResponse` (lines 211-229) over a from-scratch
  executable JSON parser.
-/

namespace ItinGen

/-! ## Character-level models of the JavaScript string primitives -/

/-- Whitespace recognised by JS trim / the regexes' `\s`, restricted to the
ASCII range (all strings compared by the service are ASCII). -/
def jsWhiteChar (c : Char) : Bool :=
  c = ' ' || c = '\t' || c = '\n' || c = '\r' || c = '\x0b' || c = '\x0c'

def jsTrimList (cs : List Char) : List Char :=
  ((cs.dropWhile jsWhiteChar).reverse.dropWhile jsWhiteChar).reverse

/-- Model of `String.prototype.trim`. -/
def jsTrim (s : String) : String := String.mk (jsTrimList s.toList)

/-- Model of `String.prototype.toLowerCase` on the ASCII range. -/
def toLowerChar (c : Char) : Char :=
  if 65 ≤ c.toNat && c.toNat ≤ 90 then Char.ofNat (c.toNat + 32) else c

def jsToLower (s : String) : String := String.mk (s.toList.map toLowerChar)

/-- Does the list start with the given pattern? (JS `startsWith`.) -/
def leadsWith : List Char → List Char → Bool
  | _, [] => true
  | [], _ :: _ => false
  | c :: cs, p :: ps => c = p && leadsWith cs ps

/-- Does the pattern occur as a contiguous substring? (JS `includes`.) -/
def containsSub (pat : List Char) : List Char → Bool
  | [] => leadsWith [] pat
  | c :: rest => leadsWith (c :: rest) pat || containsSub pat rest

/-- Model of `String.prototype.includes`. -/
def jsIncludes (s pat : String) : Bool := containsSub pat.toList s.toList

/-! ## Data model of the cascade (ItineraryGenerator.ts lines 49-99) -/

structure TripInput where
  destination : String
  duration : Int
deriving Repr, DecidableEq

/-- Trace events of one `generateItinerary` run: a model invocation
(attempts are 1-based, as in the `for` loop) or a backoff sleep. -/
inductive Event where
  | call (model : String) (attempt : Nat)
  | sleep (ms : Nat)
deriving Repr, DecidableEq

/-- Result of one guarded model call (`generateWithTimeout`), abstract in
the success payload; failures carry the JS error message. -/
inductive Outcome (α : Type) where
  | ok (val : α)
  | fail (msg : String)

/-- FALLBACK_MODELS, lines 14-19. -/
def FALLBACK_MODELS : List String :=
  ["gemini-2.5-flash", "gemini-2.5-pro", "gemini-1.5-pro", "gemini-1.5-flash"]

/-- Field `maxRetries`, line 50. -/
def maxRetries : Nat := 3

/-- Field `retryDelay` (ms), line 51. -/
def retryDelay : Nat := 1000

/-- Lines 231-234: case-insensitive transient-error test. -/
def isRetryableError (msg : String) : Bool :=
  ["timeout", "rate limit", "429", "503", "network", "unavailable"].any
    (fun t => jsIncludes (jsToLower msg) t)

/-- Line 79: the model-unavailable test (case-sensitive `includes`). -/
def isModelNotFound (msg : String) : Bool :=
  jsIncludes msg "not found" || jsIncludes msg "404"

/-- Thai message returned by handleError for timeouts (line 240). -/
def msgTimeoutTh : String := "การสร้างแผนใช้เวลานานเกินไป กรุณาลองใหม่"

/-- Thai message returned by handleError for rate limits (line 241). -/
def msgRateLimitTh : String := "ระบบมีผู้ใช้งานมาก กรุณารอสักครู่"

/-- Thai message returned by handleError for auth failures (line 242). -/
def msgAuthTh : String := "เกิดข้อผิดพลาดในการเชื่อมต่อ AI"

/-- Thai message returned by handleError for unavailable models (line 243). -/
def msgModelTh : String := "โมเดล AI ไม่พร้อมใช้งาน"

/-- Thai message returned by handleError for everything else (line 245). -/
def msgUnknownTh : String := "เกิดข้อผิดพลาดในการสร้างแผนการท่องเที่ยว กรุณาลองใหม่"

/-- Lines 236-246: map the last raw error message to the user-facing
classified error message. -/
def handleError (msg : String) : String :=
  if jsIncludes msg "timeout" then msgTimeoutTh
  else if jsIncludes msg "rate limit" || jsIncludes msg "429" then msgRateLimitTh
  else if jsIncludes msg "API key" || jsIncludes msg "401" then msgAuthTh
  else if jsIncludes msg "not found" || jsIncludes msg "404" then msgModelTh
  else msgUnknownTh

/-- The error taxonomy of the spec; each classified message corresponds to
exactly one kind. -/
inductive ErrKind where
  | Timeout
  | RateLimit
  | Auth
  | ModelUnavailable
  | Unknown
deriving Repr, DecidableEq

/-- Kind of a final classified message (the five branches of handleError). -/
def kindOfFinalMessage (m : String) : ErrKind :=
  if m = msgTimeoutTh then .Timeout
  else if m = msgRateLimitTh then .RateLimit
  else if m = msgAuthTh then .Auth
  else if m = msgModelTh then .ModelUnavailable
  else .Unknown

/-- Inner retry loop of `generateItinerary` (lines 68-95) for one model.
Arguments: current 1-based attempt number and remaining loop fuel
(at entry the fuel is `maxR`, so the loop body runs while
`attempt ≤ maxR`, exactly like `for (attempt = 1; attempt <= maxRetries;)`).
Returns the trace of this model's attempts together with either the
success value or, on `Sum.inl`, the error of the attempt that caused the
`break` (`Sum.inl none` when the loop never ran, i.e. `maxR = 0`). -/
def attemptLoop {α : Type} (oracle : String → Nat → Outcome α) (maxR delay : Nat)
    (model : String) : Nat → Nat → List Event × (Option String ⊕ α)
  | _, 0 => ([], Sum.inl none)
  | attempt, fuel + 1 =>
    match oracle model attempt with
    | .ok a => ([Event.call model attempt], Sum.inr a)
    | .fail msg =>
      if isModelNotFound msg then
        ([Event.call model attempt], Sum.inl (some msg))
      else if isRetryableError msg && decide (attempt < maxR) then
        let d := delay * 2 ^ (attempt - 1)
        let rest := attemptLoop oracle maxR delay model (attempt + 1) fuel
        (Event.call model attempt :: Event.sleep d :: rest.1, rest.2)
      else
        ([Event.call model attempt], Sum.inl (some msg))

/-- Outer loop of `generateItinerary` over the model list (lines 64-98),
threading `lastError`; when the list is exhausted the last error is pushed
through `handleError` (line 98, with the `'All models failed'` default). -/
def modelLoop {α : Type} (oracle : String → Nat → Outcome α) (maxR delay : Nat) :
    List String → Option String → List Event × Except String α
  | [], lastError => ([], .error (handleError (lastError.getD "All models failed")))
  | m :: rest, lastError =>
    match attemptLoop oracle maxR delay m 1 maxR with
    | (evs, Sum.inr a) => (evs, .ok a)
    | (evs, Sum.inl newErr) =>
      let le := match newErr with
        | some e => some e
        | none => lastError
      let r := modelLoop oracle maxR delay rest le
      (evs ++ r.1, r.2)

/-- Lines 54-99: input validation followed by the model cascade.  The body
of one attempt (`generateWithTimeout`, i.e. model call, parse and schema
validation) is abstracted by `oracle`. -/
def generateItinerary {α : Type} (oracle : String → Nat → Outcome α)
    (input : TripInput) : List Event × Except String α :=
  if input.destination = "" || (jsTrim input.destination).length = 0 then
    ([], .error "Destination is required")
  else if input.duration < 1 then
    ([], .error "Duration must be at least 1 day")
  else
    modelLoop oracle maxRetries retryDelay FALLBACK_MODELS none

/-- Number of model invocations recorded in a trace. -/
def countCalls (evs : List Event) : Nat :=
  evs.countP (fun e => match e with | .call _ _ => true | .sleep _ => false)

/-! ## Generic unfolding lemmas for the cascade loops -/

/-- One unfolding step of the inner retry loop at positive fuel. -/
theorem attemptLoop_succ {α : Type} (oracle : String → Nat → Outcome α) (maxR delay : Nat)
    (model : String) (attempt f : Nat) :
    attemptLoop oracle maxR delay model attempt (f + 1) =
      match oracle model attempt with
      | .ok a => ([Event.call model attempt], Sum.inr a)
      | .fail msg =>
        if isModelNotFound msg then
          ([Event.call model attempt], Sum.inl (some msg))
        else if isRetryableError msg && decide (attempt < maxR) then
          (Event.call model attempt ::
             Event.sleep (delay * 2 ^ (attempt - 1)) ::
             (attemptLoop oracle maxR delay model (attempt + 1) f).1,
           (attemptLoop oracle maxR delay model (attempt + 1) f).2)
        else
          ([Event.call model attempt], Sum.inl (some msg)) := rfl

/-- Unfolding of the outer loop on a non-empty model list. -/
theorem modelLoop_cons {α : Type} (oracle : String → Nat → Outcome α) (maxR delay : Nat)
    (m : String) (rest : List String) (le : Option String) :
    modelLoop oracle maxR delay (m :: rest) le =
      match attemptLoop oracle maxR delay m 1 maxR with
      | (evs, Sum.inr a) => (evs, .ok a)
      | (evs, Sum.inl newErr) =>
        (evs ++ (modelLoop oracle maxR delay rest ((newErr.map some).getD le)).1,
         (modelLoop oracle maxR delay rest ((newErr.map some).getD le)).2) := by
  show _ = (match attemptLoop oracle maxR delay m 1 maxR with
      | (evs, Sum.inr a) => (evs, Except.ok a)
      | (evs, Sum.inl newErr) =>
        (evs ++ (modelLoop oracle maxR delay rest ((newErr.map some).getD le)).1,
         (modelLoop oracle maxR delay rest ((newErr.map some).getD le)).2))
  rcases h : attemptLoop oracle maxR delay m 1 maxR with ⟨evs, res⟩
  rcases res with newErr | a
  · rcases newErr with _ | e <;> simp [modelLoop, h]
  · simp [modelLoop, h]

/-! ## Claim C1 (error message with an auth signal) -/

/-- Model client for the C1 counterexample: the first cascade model always
fails with a 401 auth error, every other model succeeds. -/
def oracleAuth : String → Nat → Outcome Nat :=
  fun m _ =>
    if m = "gemini-2.5-flash" then .fail "Request failed with status 401" else .ok 42

/-- C1 is false on the code: a 401/auth failure on the first model does NOT
terminate the cascade.  The message "Request failed with status 401"
contains "401", is not retryable, yet the run invokes the second model
("gemini-2.5-pro", attempt 1 appears in the trace) and even returns its
successful value instead of a classified error. -/
theorem C1_counterexample :
    jsIncludes "Request failed with status 401" "401" = true ∧
    isRetryableError "Request failed with status 401" = false ∧
    (generateItinerary oracleAuth ⟨"Paris", 3⟩).2.toOption = some 42 ∧
    Event.call "gemini-2.5-pro" 1 ∈ (generateItinerary oracleAuth ⟨"Paris", 3⟩).1 := by
  exact ⟨by decide, by decide, by decide, by decide⟩

/-- C1 (amended): an auth-classified failure (like any failure that is
neither a model-not-found nor a retryable one) causes no retry and no
backoff on that model, and the cascade then ADVANCES to the remaining
models with the failure as the new last error, rather than aborting;
a classified error is only produced after every model has failed. -/
theorem C1_amended_auth_error_advances :
    ∀ {α : Type} (oracle : String → Nat → Outcome α) (m : String) (rest : List String)
      (le : Option String) (msg : String) (f : Nat),
      maxRetries = f + 1 →
      oracle m 1 = .fail msg →
      isModelNotFound msg = false →
      isRetryableError msg = false →
      modelLoop oracle maxRetries retryDelay (m :: rest) le =
        (Event.call m 1 :: (modelLoop oracle maxRetries retryDelay rest (some msg)).1,
         (modelLoop oracle maxRetries retryDelay rest (some msg)).2) := by
  intro α oracle m rest le msg f hm h1 h2 h3
  rw [modelLoop_cons]
  conv in attemptLoop oracle maxRetries retryDelay m 1 maxRetries =>
    rw [hm]
  rw [attemptLoop_succ, h1]
  simp [h2, h3]

/-- Closed witness for the amended C1 theorem. -/
theorem C1_witness :
    modelLoop oracleAuth maxRetries retryDelay ["gemini-2.5-flash", "m2"] none =
      (Event.call "gemini-2.5-flash" 1 ::
         (modelLoop oracleAuth maxRetries retryDelay ["m2"]
            (some "Request failed with status 401")).1,
       (modelLoop oracleAuth maxRetries retryDelay ["m2"]
          (some "Request failed with status 401")).2) :=
  C1_amended_auth_error_advances oracleAuth "gemini-2.5-flash" ["m2"] none
    "Request failed with status 401" 2 rfl rfl (by decide) (by decide)

/-! ## Claim C2 (model not found: no retry, no backoff, advance) -/

/-- C2 (confirmed): if an attempt against a model fails with a message
containing "not found" or "404", the inner loop performs no further
attempt and no sleep against that model (first conjunct, at any attempt
number), and the cascade immediately continues with the next models,
carrying the failure as last error (second conjunct). -/
theorem C2_not_found_skips_immediately :
    (∀ {α : Type} (oracle : String → Nat → Outcome α) (maxR delay : Nat) (m : String)
       (k f : Nat) (msg : String),
       oracle m k = .fail msg →
       isModelNotFound msg = true →
       attemptLoop oracle maxR delay m k (f + 1) =
         ([Event.call m k], Sum.inl (some msg))) ∧
    (∀ {α : Type} (oracle : String → Nat → Outcome α) (delay : Nat) (m : String)
       (rest : List String) (le : Option String) (f : Nat) (msg : String),
       maxRetries = f + 1 →
       oracle m 1 = .fail msg →
       isModelNotFound msg = true →
       modelLoop oracle maxRetries delay (m :: rest) le =
         (Event.call m 1 :: (modelLoop oracle maxRetries delay rest (some msg)).1,
          (modelLoop oracle maxRetries delay rest (some msg)).2)) := by
  constructor
  · intro α oracle maxR delay m k f msg h1 h2
    rw [attemptLoop_succ, h1]
    simp [h2]
  · intro α oracle delay m rest le f msg hm h1 h2
    rw [modelLoop_cons]
    conv in attemptLoop oracle maxRetries delay m 1 maxRetries =>
      rw [hm]
    rw [attemptLoop_succ, h1]
    simp [h2]

/-- Closed witness for C2. -/
theorem C2_witness :
    attemptLoop (fun _ _ => Outcome.fail (α := Nat) "404 model not found") 3 1000 "m" 2 2 =
      ([Event.call "m" 2], Sum.inl (some "404 model not found")) ∧
    modelLoop (fun _ _ => Outcome.fail (α := Nat) "404 model not found")
        maxRetries 1000 ["m", "m2"] none =
      (Event.call "m" 1 ::
         (modelLoop (fun _ _ => Outcome.fail (α := Nat) "404 model not found")
            maxRetries 1000 ["m2"] (some "404 model not found")).1,
       (modelLoop (fun _ _ => Outcome.fail (α := Nat) "404 model not found")
          maxRetries 1000 ["m2"] (some "404 model not found")).2) :=
  ⟨C2_not_found_skips_immediately.1 _ 3 1000 "m" 2 1 "404 model not found" rfl (by decide),
   C2_not_found_skips_immediately.2 _ 1000 "m" ["m2"] none 2 "404 model not found" rfl rfl
     (by decide)⟩

/-! ## Claim C3 (exponential backoff for retryable failures) -/

/-- Model client for the C3 counterexample: the first cascade model fails
with a message that carries both a transient signal ("timeout") and "404";
every other model succeeds. -/
def oracleTimeout404 : String → Nat → Outcome Nat :=
  fun m _ => if m = "gemini-2.5-flash" then .fail "timeout 404" else .ok 0

/-- C3 is false as stated: the failure message "timeout 404" contains the
transient signal "timeout" (so `isRetryableError` classifies it as
retryable) and arrives on attempt 1 with 1 < maxRetries, yet the
orchestrator performs NO sleep and NO second attempt against the model:
the model-not-found check (lines 79-82) runs first and advances the
cascade immediately. -/
theorem C3_counterexample :
    isRetryableError "timeout 404" = true ∧
    1 < maxRetries ∧
    (generateItinerary oracleTimeout404 ⟨"Paris", 2⟩).1 =
      [Event.call "gemini-2.5-flash" 1, Event.call "gemini-2.5-pro" 1] := by
  exact ⟨by decide, by decide, by decide⟩

/-- Model client for the C3 success scenario: every attempt k < 3 fails
with a rate-limit message, attempt 3 succeeds. -/
def oracleRateLimitThird {α : Type} (a : α) : String → Nat → Outcome α :=
  fun _ k => if k = 3 then .ok a else .fail "429 rate limit exceeded"

/-- C3 (amended): for every retryable failure whose message does NOT also
contain "not found" or "404" on attempt k < maxRetries, the orchestrator
sleeps exactly delay * 2^(k-1) ms and retries the same model (first
conjunct); in the concrete scenario (maxRetries = 3, baseDelay = 1000 ms,
rate-limit failures on attempts 1 and 2, success on attempt 3) the run
returns the success after exactly the delays 1000 ms and 2000 ms (second
conjunct). -/
theorem C3_amended_backoff :
    (∀ {α : Type} (oracle : String → Nat → Outcome α) (maxR delay : Nat) (m : String)
       (k f : Nat) (msg : String),
       oracle m k = .fail msg →
       isModelNotFound msg = false →
       isRetryableError msg = true →
       k < maxR →
       attemptLoop oracle maxR delay m k (f + 1) =
         (Event.call m k :: Event.sleep (delay * 2 ^ (k - 1)) ::
            (attemptLoop oracle maxR delay m (k + 1) f).1,
          (attemptLoop oracle maxR delay m (k + 1) f).2)) ∧
    (∀ {α : Type} (a : α),
       generateItinerary (oracleRateLimitThird a) ⟨"Tokyo", 3⟩ =
         ([Event.call "gemini-2.5-flash" 1, Event.sleep 1000,
           Event.call "gemini-2.5-flash" 2, Event.sleep 2000,
           Event.call "gemini-2.5-flash" 3], .ok a)) := by
  constructor
  · intro α oracle maxR delay m k f msg h1 h2 h3 hk
    rw [attemptLoop_succ, h1]
    simp [h2, h3, hk]
  · intro α a
    rfl

/-- Closed witness for the amended C3 theorem. -/
theorem C3_witness :
    attemptLoop (oracleRateLimitThird (0 : Nat)) 3 1000 "m" 1 3 =
      (Event.call "m" 1 :: Event.sleep (1000 * 2 ^ (1 - 1)) ::
         (attemptLoop (oracleRateLimitThird (0 : Nat)) 3 1000 "m" 2 2).1,
       (attemptLoop (oracleRateLimitThird (0 : Nat)) 3 1000 "m" 2 2).2) ∧
    generateItinerary (oracleRateLimitThird (7 : Nat)) ⟨"Tokyo", 3⟩ =
      ([Event.call "gemini-2.5-flash" 1, Event.sleep 1000,
        Event.call "gemini-2.5-flash" 2, Event.sleep 2000,
        Event.call "gemini-2.5-flash" 3], .ok 7) :=
  ⟨C3_amended_backoff.1 (oracleRateLimitThird 0) 3 1000 "m" 1 2 "429 rate limit exceeded"
     rfl (by decide) (by decide) (by decide),
   C3_amended_backoff.2 7⟩

/-! ## Claim C4 (exhausted cascade returns one classified error) -/

/-- Model client for the C4 scenario: every attempt of every model fails
with the Timeout Guard's message (line 249). -/
def oracleAllTimeout (α : Type) : String → Nat → Outcome α :=
  fun _ _ => .fail "Request timeout"

/-- C4 (confirmed): handleError always produces one of the five recognized
classified messages (first conjunct); an exhausted cascade returns exactly
the classification of the LAST error seen, earlier errors being discarded
(second conjunct); and in the 2-model all-timeout scenario the returned
error is the Timeout classification after maxRetries * 2 = 6 model
invocations (third conjunct; the code's error value itself carries no
attempt counter, so the attempt count is read off the invocation trace). -/
theorem C4_exhausted_returns_last_classified :
    (∀ msg : String,
       handleError msg ∈ [msgTimeoutTh, msgRateLimitTh, msgAuthTh, msgModelTh, msgUnknownTh]) ∧
    (∀ {α : Type} (oracle : String → Nat → Outcome α) (maxR delay : Nat) (le : Option String),
       modelLoop oracle maxR delay [] le =
         ([], .error (handleError (le.getD "All models failed")))) ∧
    (∀ (α : Type) (m1 m2 : String),
       (modelLoop (oracleAllTimeout α) maxRetries retryDelay [m1, m2] none).2 =
         .error msgTimeoutTh ∧
       kindOfFinalMessage msgTimeoutTh = ErrKind.Timeout ∧
       countCalls (modelLoop (oracleAllTimeout α) maxRetries retryDelay [m1, m2] none).1 =
         maxRetries * 2) := by
  refine ⟨?_, ?_, ?_⟩
  · intro msg
    unfold handleError
    split_ifs <;> simp
  · intro α oracle maxR delay le
    rfl
  · intro α m1 m2
    exact ⟨rfl, by decide, rfl⟩

/-! ## Data model of the schema validator (lines 21-43) -/

structure Activity where
  time : String
  name : String
  location : String
  description : String
deriving Repr, DecidableEq

/-- DailyScheduleSchema, lines 28-31.  The JSON `day` number is modelled as
an `Int`; the zod `.int()` refinement is expressed by this typing and
`.positive()` by the `0 < day` check in `dailyScheduleValid`. -/
structure DailySchedule where
  day : Int
  activities : List Activity
deriving Repr, DecidableEq

/-- RecommendationSchema, lines 33-38; the category enum is checked by
`recommendationValid`. -/
structure Recommendation where
  category : String
  name : String
  description : String
  location : Option String
deriving Repr, DecidableEq

structure ItineraryResponse where
  dailySchedules : List DailySchedule
  recommendations : List Recommendation
deriving Repr, DecidableEq

/-- The regex character class `\d`. -/
def isDigitChar (c : Char) : Bool := '0' ≤ c && c ≤ '9'

/-- Line 22: the zod regex `/^\d{2}:\d{2}$/` — exactly two digits, a colon,
two digits.  Note the digits are NOT range-checked. -/
def timeRegexOk (s : String) : Bool :=
  match s.toList with
  | [h1, h2, c, m1, m2] =>
    isDigitChar h1 && isDigitChar h2 && c = ':' && isDigitChar m1 && isDigitChar m2
  | _ => false

/-- ActivitySchema, lines 21-26. -/
def activityValid (a : Activity) : Bool := timeRegexOk a.time

/-- DailyScheduleSchema, lines 28-31. -/
def dailyScheduleValid (s : DailySchedule) : Bool :=
  decide (0 < s.day) && decide (3 ≤ s.activities.length) && s.activities.all activityValid

/-- RecommendationSchema's category enum, line 34. -/
def recommendationValid (r : Recommendation) : Bool :=
  r.category = "place" || r.category = "restaurant" || r.category = "experience"

/-- ItineraryResponseSchema, lines 40-43. -/
def responseValid (r : ItineraryResponse) : Bool :=
  r.dailySchedules.all dailyScheduleValid && r.recommendations.all recommendationValid

/-! ## The sort of line 151

`schedule.activities.sort((a, b) => a.time.localeCompare(b.time))` is a
stable sort whose comparator, on the ASCII time strings at hand, coincides
with code-point lexicographic comparison.  Any stable sort computes the
same function, so it is embedded as an insertion sort by the executable
lexicographic comparison `timeLeB`. -/

/-- Lexicographic less-or-equal on character lists (code-point order). -/
def listLe : List Char → List Char → Bool
  | [], _ => true
  | _ :: _, [] => false
  | a :: as, b :: bs => if a < b then true else if b < a then false else listLe as bs

/-- Comparator of line 151 as a total Boolean relation. -/
def timeLeB (a b : Activity) : Bool := listLe a.time.toList b.time.toList

def insertByTime (a : Activity) : List Activity → List Activity
  | [] => [a]
  | b :: l => if timeLeB a b then a :: b :: l else b :: insertByTime a l

def sortByTime : List Activity → List Activity
  | [] => []
  | a :: l => insertByTime a (sortByTime l)

/-- Line 150-152 for one day. -/
def sortSchedule (s : DailySchedule) : DailySchedule :=
  { s with activities := sortByTime s.activities }

/-- Stand-in for the text of the ZodError thrown by
`ItineraryResponseSchema.parse`; no claim depends on its wording. -/
def zodErrorMsg : String := "Zod schema validation failed"

/-- Lines 147-156 of `callGeminiAPI`: zod validation of the parsed value,
in-place sort of each day's activities, then the duration check.  Success
returns the normalized response (the surrounding record assembly of lines
158-168 copies it unchanged). -/
def validateAndSort (duration : Int) (r : ItineraryResponse) : Except String ItineraryResponse :=
  if responseValid r = false then .error zodErrorMsg
  else if ((r.dailySchedules.map sortSchedule).length : Int) ≠ duration then
    .error ("Expected " ++ toString duration ++ " days but got " ++
      toString (r.dailySchedules.map sortSchedule).length)
  else .ok { r with dailySchedules := r.dailySchedules.map sortSchedule }

/-! ## Order facts about the comparator -/

theorem listLe_iff_not_lt (s t : List Char) : listLe s t = true ↔ ¬ t < s := by
  show listLe s t = true ↔ ¬ List.Lex (· < ·) t s
  induction s generalizing t with
  | nil =>
    exact iff_of_true rfl (List.Lex.not_nil_right _ t)
  | cons a as ih =>
    cases t with
    | nil =>
      exact iff_of_false (by simp [listLe]) (fun h => h (List.Lex.nil))
    | cons b bs =>
      simp only [listLe]
      rcases lt_trichotomy a b with h | h | h
      · rw [if_pos h]
        refine iff_of_true rfl fun hlex => ?_
        cases hlex with
        | cons h' => exact lt_irrefl a h
        | rel h' => exact lt_asymm h h'
      · subst h
        rw [if_neg (lt_irrefl a), if_neg (lt_irrefl a)]
        rw [ih bs]
        exact (not_congr (List.Lex.cons_iff (r := (· < ·)))).symm
      · rw [if_neg (lt_asymm h), if_pos h]
        exact iff_of_false (by simp) (fun hn => hn (List.Lex.rel h))

theorem listLe_iff_le (s t : List Char) : listLe s t = true ↔ s ≤ t :=
  (listLe_iff_not_lt s t).trans not_lt

theorem timeLeB_iff_le (a b : Activity) : timeLeB a b = true ↔ a.time ≤ b.time :=
  (listLe_iff_le _ _).trans String.le_iff_toList_le.symm

theorem timeLeB_total (a b : Activity) : timeLeB a b = true ∨ timeLeB b a = true := by
  rw [timeLeB_iff_le, timeLeB_iff_le]
  exact le_total a.time b.time

theorem timeLeB_trans {a b c : Activity} (h1 : timeLeB a b = true) (h2 : timeLeB b c = true) :
    timeLeB a c = true := by
  rw [timeLeB_iff_le] at h1 h2 ⊢
  exact le_trans h1 h2

/-! ## Permutation and sortedness of the insertion sort -/

theorem insertByTime_perm (a : Activity) (l : List Activity) :
    List.Perm (insertByTime a l) (a :: l) := by
  induction l with
  | nil => exact List.Perm.refl _
  | cons b l ih =>
    simp only [insertByTime]
    split
    · exact List.Perm.refl _
    · exact (ih.cons b).trans (List.Perm.swap a b l)

theorem sortByTime_perm (l : List Activity) : List.Perm (sortByTime l) l := by
  induction l with
  | nil => exact List.Perm.refl _
  | cons a l ih =>
    exact (insertByTime_perm a (sortByTime l)).trans (ih.cons a)

theorem pairwise_insertByTime {a : Activity} {l : List Activity}
    (h : l.Pairwise (fun x y => timeLeB x y = true)) :
    (insertByTime a l).Pairwise (fun x y => timeLeB x y = true) := by
  induction l with
  | nil => simp [insertByTime]
  | cons b l ih =>
    rcases List.pairwise_cons.mp h with ⟨hb, hl⟩
    simp only [insertByTime]
    by_cases hab : timeLeB a b = true
    · rw [if_pos hab]
      refine List.pairwise_cons.mpr ⟨?_, h⟩
      intro x hx
      rcases List.mem_cons.mp hx with rfl | hx'
      · exact hab
      · exact timeLeB_trans hab (hb x hx')
    · rw [if_neg hab]
      have hba : timeLeB b a = true := (timeLeB_total a b).resolve_left hab
      refine List.pairwise_cons.mpr ⟨?_, ih hl⟩
      intro x hx
      have hx2 : x ∈ a :: l := (insertByTime_perm a l).mem_iff.mp hx
      rcases List.mem_cons.mp hx2 with rfl | hx'
      · exact hba
      · exact hb x hx'

theorem pairwise_sortByTime (l : List Activity) :
    (sortByTime l).Pairwise (fun x y => timeLeB x y = true) := by
  induction l with
  | nil => simp [sortByTime]
  | cons a l ih => exact pairwise_insertByTime ih

/-! ## Shape of a successful validation -/

theorem validateAndSort_ok {d : Int} {r out : ItineraryResponse}
    (h : validateAndSort d r = .ok out) :
    responseValid r = true ∧
    out = { r with dailySchedules := r.dailySchedules.map sortSchedule } ∧
    (r.dailySchedules.length : Int) = d := by
  unfold validateAndSort at h
  split_ifs at h with h1 h2
  injection h with h3
  refine ⟨by revert h1; cases responseValid r <;> simp, h3.symm, ?_⟩
  simpa using h2

theorem responseValid_schedules {r : ItineraryResponse} (h : responseValid r = true) :
    ∀ s ∈ r.dailySchedules, dailyScheduleValid s = true := by
  have h1 : r.dailySchedules.all dailyScheduleValid = true := by
    revert h
    unfold responseValid
    cases r.dailySchedules.all dailyScheduleValid <;> simp
  exact fun s hs => List.all_eq_true.mp h1 s hs

theorem dailyScheduleValid_parts {s : DailySchedule} (h : dailyScheduleValid s = true) :
    0 < s.day ∧ 3 ≤ s.activities.length ∧ ∀ a ∈ s.activities, timeRegexOk a.time = true := by
  unfold dailyScheduleValid at h
  simp only [Bool.and_eq_true, decide_eq_true_eq, List.all_eq_true] at h
  exact ⟨h.1.1, h.1.2, fun a ha => h.2 a ha⟩

/-! ## Claim C5 (duration and per-day shape of accepted results) -/

def actA : Activity :=
  { time := "09:00", name := "Morning walk", location := "Park", description := "walk" }

def actB : Activity :=
  { time := "12:00", name := "Lunch", location := "Cafe", description := "eat" }

def actC : Activity :=
  { time := "15:00", name := "Museum", location := "City", description := "visit" }

/-- A well-formed response for duration 1 whose single schedule carries
`day = 5` instead of its 1-based position 1. -/
def respDayFive : ItineraryResponse :=
  { dailySchedules := [{ day := 5, activities := [actA, actB, actC] }]
    recommendations := [] }

/-- C5 is false on the code in its `day`-numbering part: the schema only
requires `day` to be a positive integer (line 29), so a duration-1 response
whose single schedule has `day = 5` is ACCEPTED and returned with `day = 5`,
which differs from its 1-based position 1. -/
theorem C5_counterexample :
    (validateAndSort 1 respDayFive).toOption.map
        (fun o => o.dailySchedules.map (fun s => s.day)) = some [5] ∧
    [(5 : Int)] ≠ [(1 : Int)] := by
  exact ⟨by decide, by decide⟩

/-- C5 (amended): an accepted result has exactly `duration` daily
schedules, each with at least 3 activities and a POSITIVE `day` field (the
`day` field is not forced to equal the schedule's 1-based position); and a
response whose number of schedules differs from the requested duration is
rejected, never truncated or padded. -/
theorem C5_amended_schedule_shape :
    (∀ (d : Int) (r out : ItineraryResponse), validateAndSort d r = .ok out →
       (out.dailySchedules.length : Int) = d ∧
       ∀ s ∈ out.dailySchedules, 0 < s.day ∧ 3 ≤ s.activities.length) ∧
    (∀ (d : Int) (r : ItineraryResponse), (r.dailySchedules.length : Int) ≠ d →
       ∀ out, validateAndSort d r ≠ .ok out) := by
  constructor
  · intro d r out h
    rcases validateAndSort_ok h with ⟨hv, rfl, hlen⟩
    constructor
    · simpa using hlen
    · intro s hs
      rcases List.mem_map.mp hs with ⟨s0, hs0, rfl⟩
      rcases dailyScheduleValid_parts (responseValid_schedules hv s0 hs0) with ⟨hday, hact, -⟩
      refine ⟨hday, ?_⟩
      have : (sortByTime s0.activities).length = s0.activities.length :=
        (sortByTime_perm s0.activities).length_eq
      simpa [sortSchedule, this] using hact
  · intro d r hne out h
    exact hne (validateAndSort_ok h).2.2

/-- Closed witness for the amended C5 theorem. -/
theorem C5_witness :
    ((respDayFive.dailySchedules.length : Int) = 1 ∧
      ∀ s ∈ respDayFive.dailySchedules, 0 < s.day ∧ 3 ≤ s.activities.length) ∧
    ∀ out, validateAndSort 2 respDayFive ≠ .ok out :=
  ⟨C5_amended_schedule_shape.1 1 respDayFive respDayFive rfl,
   C5_amended_schedule_shape.2 2 respDayFive (by decide)⟩

/-! ## Claim C6 (time strings: shape is checked, ranges are not) -/

/-- Modelled from the spec: the validation the spec claims for activity
times, "`time` matches `HH:mm` (00-23 hours, 00-59 minutes)" — two digits,
a colon, two digits, with the hour at most 23 and the minute at most 59. -/
def timeInRange (s : String) : Bool :=
  match s.toList with
  | [h1, h2, c, m1, m2] =>
    isDigitChar h1 && isDigitChar h2 && c = ':' && isDigitChar m1 && isDigitChar m2 &&
    decide ((h1.toNat - 48) * 10 + (h2.toNat - 48) ≤ 23) &&
    decide ((m1.toNat - 48) * 10 + (m2.toNat - 48) ≤ 59)
  | _ => false

/-- A duration-1 response whose first activity has the out-of-range time
"99:99". -/
def respBadTime : ItineraryResponse :=
  { dailySchedules :=
      [{ day := 1
         activities :=
           [{ time := "99:99", name := "Late", location := "Bar", description := "x" },
            actB, actC] }]
    recommendations := [] }

/-- C6 is false on the code: the zod regex (line 22) only checks the shape
two-digits:two-digits, not the 00-23 / 00-59 ranges, so a response whose
activity time is "99:99" — outside the ranges the claim requires — is
ACCEPTED by the schema validator. -/
theorem C6_counterexample :
    timeInRange "99:99" = false ∧
    (validateAndSort 1 respBadTime).toOption.isSome = true := by
  exact ⟨by decide, by decide⟩

/-- C6 (amended): the validator enforces exactly the syntactic shape
`\d\d:\d\d`: every activity of an accepted response matches it, and a
response containing an activity whose time does not match it is rejected.
The numeric ranges of hours and minutes are NOT checked. -/
theorem C6_amended_time_shape_only :
    (∀ (d : Int) (r out : ItineraryResponse), validateAndSort d r = .ok out →
       ∀ s ∈ r.dailySchedules, ∀ a ∈ s.activities, timeRegexOk a.time = true) ∧
    (∀ (d : Int) (r : ItineraryResponse),
       (∃ s ∈ r.dailySchedules, ∃ a ∈ s.activities, timeRegexOk a.time = false) →
       ∀ out, validateAndSort d r ≠ .ok out) := by
  constructor
  · intro d r out h s hs a ha
    rcases validateAndSort_ok h with ⟨hv, -, -⟩
    exact (dailyScheduleValid_parts (responseValid_schedules hv s hs)).2.2 a ha
  · rintro d r ⟨s, hs, a, ha, hbad⟩ out h
    rcases validateAndSort_ok h with ⟨hv, -, -⟩
    have := (dailyScheduleValid_parts (responseValid_schedules hv s hs)).2.2 a ha
    rw [hbad] at this
    exact Bool.noConfusion this

/-- Closed witness for the amended C6 theorem. -/
theorem C6_witness :
    timeRegexOk actA.time = true ∧
    ∀ out, validateAndSort 1
        ({ dailySchedules := [{ day := 1, activities := [{ actA with time := "bad" }, actB, actC] }]
           recommendations := [] } : ItineraryResponse) ≠ .ok out :=
  ⟨C6_amended_time_shape_only.1 1 respDayFive respDayFive rfl
     { day := 5, activities := [actA, actB, actC] } (by decide) actA (by decide),
   C6_amended_time_shape_only.2 1 _
     ⟨{ day := 1, activities := [{ actA with time := "bad" }, actB, actC] }, by decide,
      { actA with time := "bad" }, by decide, by decide⟩⟩

/-! ## Claim C7 (accepted activities are sorted by time) -/

/-- C7 (confirmed): in every accepted response, every day's activities are
in ascending lexicographic order of their `time` strings, whatever order
the model produced (line 151's sort establishes it). -/
theorem C7_activities_sorted :
    ∀ (d : Int) (r out : ItineraryResponse), validateAndSort d r = .ok out →
      ∀ s ∈ out.dailySchedules,
        s.activities.Pairwise (fun a b : Activity => a.time ≤ b.time) := by
  intro d r out h s hs
  rcases validateAndSort_ok h with ⟨-, rfl, -⟩
  rcases List.mem_map.mp hs with ⟨s0, -, rfl⟩
  exact (pairwise_sortByTime s0.activities).imp fun h' => (timeLeB_iff_le _ _).mp h'

/-- An unsorted well-formed response and its sorted image, for witnesses. -/
def respUnsorted : ItineraryResponse :=
  { dailySchedules := [{ day := 1, activities := [actB, actA, actC] }]
    recommendations :=
      [{ category := "place", name := "Temple", description := "old", location := some "Main" }] }

def respUnsortedOut : ItineraryResponse :=
  { dailySchedules := [{ day := 1, activities := [actA, actB, actC] }]
    recommendations :=
      [{ category := "place", name := "Temple", description := "old", location := some "Main" }] }

/-- Closed witness for C7. -/
theorem C7_witness :
    (({ day := 1, activities := [actA, actB, actC] } : DailySchedule)).activities.Pairwise
      (fun a b : Activity => a.time ≤ b.time) :=
  C7_activities_sorted 1 respUnsorted respUnsortedOut rfl
    { day := 1, activities := [actA, actB, actC] } (by decide)

/-! ## Claim C9 (sorting is the only mutation) -/

/-- C9 (confirmed): an accepted response passes through the validator with
its recommendations unchanged, the same number of daily schedules, and,
position by position, the same `day` field and a permutation (the sort) of
the same activity records; no other field is touched. -/
theorem C9_sort_only_mutation :
    ∀ (d : Int) (r out : ItineraryResponse), validateAndSort d r = .ok out →
      out.recommendations = r.recommendations ∧
      out.dailySchedules.length = r.dailySchedules.length ∧
      ∀ i : Nat, i < r.dailySchedules.length →
        ∃ so si, out.dailySchedules[i]? = some so ∧ r.dailySchedules[i]? = some si ∧
          so.day = si.day ∧ List.Perm so.activities si.activities := by
  intro d r out h
  rcases validateAndSort_ok h with ⟨-, rfl, -⟩
  refine ⟨rfl, by simp, ?_⟩
  intro i hi
  refine ⟨sortSchedule (r.dailySchedules.get ⟨i, hi⟩), r.dailySchedules.get ⟨i, hi⟩, ?_, ?_,
    rfl, sortByTime_perm _⟩
  · simp [List.getElem?_eq_getElem hi]
  · simp [List.getElem?_eq_getElem hi]

/-- Closed witness for C9. -/
theorem C9_witness :
    respUnsortedOut.recommendations = respUnsorted.recommendations ∧
    respUnsortedOut.dailySchedules.length = respUnsorted.dailySchedules.length ∧
    ∃ so si, respUnsortedOut.dailySchedules[0]? = some so ∧
      respUnsorted.dailySchedules[0]? = some si ∧
      so.day = si.day ∧ List.Perm so.activities si.activities :=
  ⟨(C9_sort_only_mutation 1 respUnsorted respUnsortedOut rfl).1,
   (C9_sort_only_mutation 1 respUnsorted respUnsortedOut rfl).2.1,
   (C9_sort_only_mutation 1 respUnsorted respUnsortedOut rfl).2.2 0 (by decide)⟩

/-! ## Claim C10 (input validation before any model call) -/

/-- C10 (confirmed): an input whose destination trims to the empty string
(so the empty string itself or a whitespace-only string) is rejected with
'Destination is required' and an input with duration < 1 with 'Duration
must be at least 1 day', both with an EMPTY trace: no model is invoked. -/
theorem C10_input_validation :
    ∀ {α : Type} (oracle : String → Nat → Outcome α) (input : TripInput),
      (jsTrim input.destination = "" →
        generateItinerary oracle input = ([], .error "Destination is required")) ∧
      (jsTrim input.destination ≠ "" → input.duration < 1 →
        generateItinerary oracle input = ([], .error "Duration must be at least 1 day")) := by
  intro α oracle input
  constructor
  · intro h
    unfold generateItinerary
    rw [h]
    simp
  · intro h1 h2
    have hne : input.destination ≠ "" := by
      intro he
      exact h1 (by rw [he]; rfl)
    have hlen : (jsTrim input.destination).length ≠ 0 := by
      intro hl
      apply h1
      have : (jsTrim input.destination).data.length = 0 := hl
      have hdata : (jsTrim input.destination).data = [] := List.length_eq_zero.mp this
      cases hjs : jsTrim input.destination with
      | mk data => rw [hjs] at hdata; cases hdata; rfl
    unfold generateItinerary
    rw [if_neg (by simp [hne, hlen]), if_pos h2]

/-- Closed witness for C10 at a whitespace-only destination and at a
non-positive duration. -/
theorem C10_witness :
    generateItinerary (fun _ _ => Outcome.fail (α := Nat) "x") ⟨"   ", 3⟩ =
      ([], .error "Destination is required") ∧
    generateItinerary (fun _ _ => Outcome.fail (α := Nat) "x") ⟨"Bangkok", 0⟩ =
      ([], .error "Duration must be at least 1 day") :=
  ⟨(C10_input_validation (fun _ _ => Outcome.fail "x") ⟨"   ", 3⟩).1 (by decide),
   (C10_input_validation (fun _ _ => Outcome.fail "x") ⟨"Bangkok", 0⟩).2 (by decide) (by decide)⟩

/-! ## JSON values and an executable model of `JSON.parse`

`parseAIResponse` (lines 211-229) relies on the platform's `JSON.parse`.
It is modelled by a from-scratch recursive-descent JSON reader over
`List Char`, structurally recursive on an ample fuel so that closed runs
reduce in the kernel.  Two harmless representation choices: number tokens
are kept as their source lexeme (no claim inspects numeric values), and
object fields are kept in order with duplicates (no claim involves
duplicate keys).  Escaped `\uXXXX` code units are decoded without
recombining surrogate pairs (no claim involves them). -/

inductive JsonV where
  | null
  | bool (b : Bool)
  | num (lexeme : String)
  | str (s : String)
  | arr (elems : List JsonV)
  | obj (fields : List (String × JsonV))
deriving Repr, BEq

/-- JSON insignificant whitespace (ECMA-404): space, tab, LF, CR. -/
def skipWs (cs : List Char) : List Char :=
  cs.dropWhile (fun c => c = ' ' || c = '\t' || c = '\n' || c = '\r')

def hexDigitVal (c : Char) : Option Nat :=
  if '0' ≤ c && c ≤ '9' then some (c.toNat - 48)
  else if 'a' ≤ c && c ≤ 'f' then some (c.toNat - 87)
  else if 'A' ≤ c && c ≤ 'F' then some (c.toNat - 55)
  else none

/-- Body of a JSON string after the opening quote; returns the decoded
content and the remainder after the closing quote. -/
def parseStringBody : Nat → List Char → Option (List Char × List Char)
  | 0, _ => none
  | _ + 1, [] => none
  | fuel + 1, c :: rest =>
    if c = '"' then some ([], rest)
    else if c = '\\' then
      match rest with
      | [] => none
      | e :: rest2 =>
        if e = '"' then (parseStringBody fuel rest2).map (fun p => ('"' :: p.1, p.2))
        else if e = '\\' then (parseStringBody fuel rest2).map (fun p => ('\\' :: p.1, p.2))
        else if e = '/' then (parseStringBody fuel rest2).map (fun p => ('/' :: p.1, p.2))
        else if e = 'b' then (parseStringBody fuel rest2).map (fun p => ('\x08' :: p.1, p.2))
        else if e = 'f' then (parseStringBody fuel rest2).map (fun p => ('\x0c' :: p.1, p.2))
        else if e = 'n' then (parseStringBody fuel rest2).map (fun p => ('\n' :: p.1, p.2))
        else if e = 'r' then (parseStringBody fuel rest2).map (fun p => ('\x0d' :: p.1, p.2))
        else if e = 't' then (parseStringBody fuel rest2).map (fun p => ('\t' :: p.1, p.2))
        else if e = 'u' then
          match rest2 with
          | h1 :: h2 :: h3 :: h4 :: rest3 =>
            match hexDigitVal h1, hexDigitVal h2, hexDigitVal h3, hexDigitVal h4 with
            | some v1, some v2, some v3, some v4 =>
              (parseStringBody fuel rest3).map
                (fun p => (Char.ofNat (((v1 * 16 + v2) * 16 + v3) * 16 + v4) :: p.1, p.2))
            | _, _, _, _ => none
          | _ => none
        else none
    else if c.toNat < 32 then none
    else (parseStringBody fuel rest).map (fun p => (c :: p.1, p.2))

/-- JSON number token: -? (0 | [1-9][0-9]*) (. [0-9]+)? ([eE][+-]?[0-9]+)? -/
def parseNumberLex (cs : List Char) : Option (List Char × List Char) :=
  let signAndRest : List Char × List Char :=
    match cs with
    | '-' :: r => (['-'], r)
    | _ => ([], cs)
  let ds := signAndRest.2.takeWhile isDigitChar
  let cs2 := signAndRest.2.dropWhile isDigitChar
  if ds = [] then none
  else if 1 < ds.length && ds.head? = some '0' then none
  else
    let fracRes : Option (List Char × List Char) :=
      match cs2 with
      | '.' :: r =>
        match r.takeWhile isDigitChar with
        | [] => none
        | fs => some ('.' :: fs, r.dropWhile isDigitChar)
      | _ => some ([], cs2)
    match fracRes with
    | none => none
    | some (frac, cs3) =>
      let expRes : Option (List Char × List Char) :=
        match cs3 with
        | e :: r =>
          if e = 'e' || e = 'E' then
            let sgnAndRest : List Char × List Char :=
              match r with
              | '+' :: rr => (['+'], rr)
              | '-' :: rr => (['-'], rr)
              | _ => ([], r)
            match sgnAndRest.2.takeWhile isDigitChar with
            | [] => none
            | es => some (e :: (sgnAndRest.1 ++ es), sgnAndRest.2.dropWhile isDigitChar)
          else some ([], cs3)
        | [] => some ([], cs3)
      match expRes with
      | none => none
      | some (ex, cs4) => some (signAndRest.1 ++ ds ++ frac ++ ex, cs4)

mutual

def parseValue : Nat → List Char → Option (JsonV × List Char)
  | 0, _ => none
  | fuel + 1, cs =>
    match cs with
    | 'n' :: 'u' :: 'l' :: 'l' :: rest => some (.null, rest)
    | 't' :: 'r' :: 'u' :: 'e' :: rest => some (.bool true, rest)
    | 'f' :: 'a' :: 'l' :: 's' :: 'e' :: rest => some (.bool false, rest)
    | '"' :: rest =>
      match parseStringBody (rest.length + 1) rest with
      | some (content, r2) => some (.str (String.mk content), r2)
      | none => none
    | '[' :: rest =>
      match skipWs rest with
      | ']' :: r2 => some (.arr [], r2)
      | other =>
        match parseElems fuel other with
        | some (vs, r3) => some (.arr vs, r3)
        | none => none
    | '\x7b' :: rest =>
      match skipWs rest with
      | '\x7d' :: r2 => some (.obj [], r2)
      | other =>
        match parseMembers fuel other with
        | some (ms, r3) => some (.obj ms, r3)
        | none => none
    | _ =>
      match parseNumberLex cs with
      | some (lex, rest) => some (.num (String.mk lex), rest)
      | none => none

def parseElems : Nat → List Char → Option (List JsonV × List Char)
  | 0, _ => none
  | fuel + 1, cs =>
    match parseValue fuel (skipWs cs) with
    | none => none
    | some (v, rest) =>
      match skipWs rest with
      | ',' :: r2 =>
        match parseElems fuel r2 with
        | some (vs, r3) => some (v :: vs, r3)
        | none => none
      | ']' :: r2 => some ([v], r2)
      | _ => none

def parseMembers : Nat → List Char → Option (List (String × JsonV) × List Char)
  | 0, _ => none
  | fuel + 1, cs =>
    match skipWs cs with
    | '"' :: rest =>
      match parseStringBody (rest.length + 1) rest with
      | none => none
      | some (key, r1) =>
        match skipWs r1 with
        | ':' :: r2 =>
          match parseValue fuel (skipWs r2) with
          | none => none
          | some (v, r3) =>
            match skipWs r3 with
            | ',' :: r4 =>
              match parseMembers fuel r4 with
              | some (ms, r5) => some ((String.mk key, v) :: ms, r5)
              | none => none
            | '\x7d' :: r4 => some ([(String.mk key, v)], r4)
            | _ => none
        | _ => none
    | _ => none

end

/-- Model of `JSON.parse`: one JSON value spanning the whole text up to
surrounding whitespace; any other input is a parse failure.  The fuel
2*length+2 is ample: between two fuel decrements at least one character is
consumed. -/
def jsonParse (s : String) : Option JsonV :=
  match parseValue (2 * s.toList.length + 2) (skipWs s.toList) with
  | some (v, rest) => if skipWs rest = [] then some v else none
  | none => none

/-! ## parseAIResponse (lines 211-229) -/

/-- Strip of the closing fence, i.e. `replace(/\s*` ``` `$/, '')`: if the
string ends in three backticks, remove them and the whitespace before
them; otherwise leave the string unchanged. -/
def stripClosingFence (cs : List Char) : List Char :=
  if leadsWith cs.reverse ['\x60', '\x60', '\x60'] then
    ((cs.take (cs.length - 3)).reverse.dropWhile jsWhiteChar).reverse
  else cs

/-- Lines 214-218: remove a leading ` ```json ` or ` ``` ` fence marker
(with the whitespace after it) and, when present, the trailing ` ``` `
(with the whitespace before it). -/
def fenceTrim (t : String) : String :=
  let cs := t.toList
  if leadsWith cs ['\x60', '\x60', '\x60', 'j', 's', 'o', 'n'] then
    String.mk (stripClosingFence ((cs.drop 7).dropWhile jsWhiteChar))
  else if leadsWith cs ['\x60', '\x60', '\x60'] then
    String.mk (stripClosingFence ((cs.drop 3).dropWhile jsWhiteChar))
  else t

/-- Line 223's `text.match(/\{[\s\S]*\}/)`.  For this pattern the leftmost
longest match runs from the FIRST left brace of the text to the LAST right
brace, and exists exactly when that first left brace lies strictly before
that last right brace; the extracted substring is modelled accordingly. -/
def regexExtract (text : String) : Option String :=
  if (text.toList.takeWhile (fun c => c ≠ '\x7b')).length +
      (text.toList.reverse.takeWhile (fun c => c ≠ '\x7d')).length + 1 <
      text.toList.length then
    some (String.mk
      ((text.toList.dropWhile (fun c => c ≠ '\x7b')).take
        (text.toList.length -
          (text.toList.takeWhile (fun c => c ≠ '\x7b')).length -
          (text.toList.reverse.takeWhile (fun c => c ≠ '\x7d')).length)))
  else none

/-- Lines 211-229: trim; strip fence markers; try a direct parse; on
failure extract the brace-to-brace substring of the ORIGINAL text and
parse that; otherwise fail. -/
def parseAIResponse (text : String) : Option JsonV :=
  match jsonParse (fenceTrim (jsTrim text)) with
  | some v => some v
  | none =>
    match regexExtract text with
    | some sub => jsonParse sub
    | none => none

/-- Depth-counting scanner over a text beginning at a left brace,
accumulating until the matching right brace closes depth 1. -/
def scanBalanced : Nat → List Char → List Char → Option (List Char)
  | _, _, [] => none
  | depth, acc, c :: rest =>
    if c = '\x7b' then scanBalanced (depth + 1) (acc ++ [c]) rest
    else if c = '\x7d' then
      if depth = 1 then some (acc ++ [c])
      else if depth = 0 then none
      else scanBalanced (depth - 1) (acc ++ [c]) rest
    else scanBalanced depth (acc ++ [c]) rest

/-- Modelled from the spec: the "first balanced `{...}` substring" of the
text that step (3) of the Response Parser is said to extract. -/
def firstBalancedSubstring (text : String) : Option String :=
  (scanBalanced 0 [] (text.toList.dropWhile (fun c => c ≠ '\x7b'))).map String.mk

/-- Modelled from the spec: the Response Parser algorithm as section 4.3 of the spec words
it, identical to the code except that step (3) extracts the first balanced
brace substring. -/
def parseAIResponseSpec (text : String) : Option JsonV :=
  match jsonParse (fenceTrim (jsTrim text)) with
  | some v => some v
  | none =>
    match firstBalancedSubstring text with
    | some sub => jsonParse sub
    | none => none

/-! ## Helper lemmas about takeWhile and around -/

theorem head?_dropWhile_false {α : Type} {p : α → Bool} {l : List α} {c : α}
    (h : (l.dropWhile p).head? = some c) : p c = false := by
  induction l with
  | nil => simp [List.dropWhile] at h
  | cons a t ih =>
    rw [List.dropWhile_cons] at h
    by_cases hp : p a
    · rw [if_pos hp] at h
      exact ih h
    · rw [if_neg hp] at h
      simp only [List.head?_cons, Option.some.injEq] at h
      subst h
      exact Bool.eq_false_iff.mpr hp

theorem head?_take_pos {α : Type} {l : List α} {k : Nat} (hk : 0 < k) :
    (l.take k).head? = l.head? := by
  cases l with
  | nil => simp
  | cons a t =>
    cases k with
    | zero => exact absurd hk (lt_irrefl 0)
    | succ k => simp [List.take]

/-! ## Claim C8 (the response parser pipeline) -/

/-- Text refuting C8: prose around two complete JSON objects. -/
def cx8 : String := "x \x7b\"a\": 1\x7d y \x7b\"b\": 2\x7d"

/-- C8 is false on the code in its step (3): the fallback extraction is the
GREEDY match from the first left brace to the LAST right brace, not the
first balanced brace substring.  On a text carrying two complete objects
the code extracts the whole brace-to-brace span, whose parse fails, so
`parseAIResponse` fails where the spec's first-balanced-substring algorithm
succeeds. -/
theorem C8_counterexample :
    (parseAIResponse cx8).isSome = false ∧
    (parseAIResponseSpec cx8).isSome = true ∧
    regexExtract cx8 ≠ firstBalancedSubstring cx8 := by
  exact ⟨by decide, by decide, by decide⟩

/-- C8 (amended): the parser (1) trims the text and surrounding Markdown
code-fence markers, (2) attempts a direct JSON parse and returns its value
on success, (3) on failure extracts the substring of the ORIGINAL text
running from its first left brace to its last right brace (the greedy
regex match) and returns that substring's parse, failing if it fails, and
(4) fails when no such substring exists.  The third conjunct pins down the
extraction: the text decomposes as pre ++ sub ++ suf with no left brace
before sub and no right brace after it, and sub starts with a left
brace. -/
theorem C8_amended_parse_pipeline :
    (∀ (text : String) (v : JsonV), jsonParse (fenceTrim (jsTrim text)) = some v →
       parseAIResponse text = some v) ∧
    (∀ text : String, jsonParse (fenceTrim (jsTrim text)) = none →
       parseAIResponse text = (regexExtract text).bind jsonParse) ∧
    (∀ (text sub : String), regexExtract text = some sub →
       ∃ pre suf : List Char,
         text.toList = pre ++ sub.toList ++ suf ∧
         (∀ c ∈ pre, c ≠ '\x7b') ∧
         (∀ c ∈ suf, c ≠ '\x7d') ∧
         sub.toList.head? = some '\x7b') := by
  refine ⟨?_, ?_, ?_⟩
  · intro text v h
    unfold parseAIResponse
    rw [h]
  · intro text h
    unfold parseAIResponse
    rw [h]
    cases hre : regexExtract text <;> simp [Option.bind]
  · intro text sub h
    unfold regexExtract at h
    split_ifs at h with hc
    injection h with hs
    subst hs
    set cs := text.toList with hcs
    set pre := cs.takeWhile (fun c => c ≠ '\x7b') with hpre
    set sufRev := cs.reverse.takeWhile (fun c => c ≠ '\x7d') with hsufrev
    set rest := cs.dropWhile (fun c => c ≠ '\x7b') with hrest
    set restRev := cs.reverse.dropWhile (fun c => c ≠ '\x7d') with hrestrev
    set k := cs.length - pre.length - sufRev.length with hk
    have hsplit : pre ++ rest = cs := by
      rw [hpre, hrest]
      exact List.takeWhile_append_dropWhile _ _
    have hrev : sufRev ++ restRev = cs.reverse := by
      rw [hsufrev, hrestrev]
      exact List.takeWhile_append_dropWhile _ _
    have hcs2 : cs = restRev.reverse ++ sufRev.reverse := by
      have h1 := congrArg List.reverse hrev
      simpa [List.reverse_append] using h1.symm
    have hlen1 : pre.length + rest.length = cs.length := by
      have h1 := congrArg List.length hsplit
      simpa using h1
    have hlen2 : sufRev.length + restRev.length = cs.length := by
      have h1 := congrArg List.length hrev
      simpa using h1
    have hklen : (rest.take k).length = k := by
      rw [List.length_take]
      omega
    refine ⟨pre, rest.drop k, ?_, ?_, ?_, ?_⟩
    · show cs = pre ++ rest.take k ++ rest.drop k
      rw [List.append_assoc, List.take_append_drop, hsplit]
    · intro c hcmem
      rw [hpre] at hcmem
      have h2 := List.mem_takeWhile_imp hcmem
      simpa using h2
    · intro c hcmem
      have hsufeq : rest.drop k = sufRev.reverse := by
        have h1 : (pre ++ rest.take k) ++ rest.drop k = restRev.reverse ++ sufRev.reverse := by
          rw [List.append_assoc, List.take_append_drop, hsplit]
          exact hcs2
        have h2 : (pre ++ rest.take k).length = restRev.reverse.length := by
          rw [List.length_append, hklen, List.length_reverse]
          omega
        exact (List.append_inj h1 h2).2
      rw [hsufeq] at hcmem
      have hcmem2 := List.mem_reverse.mp hcmem
      rw [hsufrev] at hcmem2
      have h2 := List.mem_takeWhile_imp hcmem2
      simpa using h2
    · show (rest.take k).head? = some '\x7b'
      have hk1 : 0 < k := by omega
      rw [head?_take_pos hk1]
      cases hr : rest with
      | nil =>
        rw [hr] at hlen1
        simp at hlen1
        omega
      | cons a t =>
        have hhead2 : (cs.dropWhile (fun c => c ≠ '\x7b')).head? = some a := by
          rw [← hrest, hr]
          rfl
        have hfalse := head?_dropWhile_false hhead2
        have ha : a = '\x7b' := by
          have h2 : ¬ (a ≠ '\x7b') := by simpa using hfalse
          exact not_not.mp h2
        simp [ha]

/-- Closed witness for the amended C8 theorem: a bare object parses
directly; with prose in front the result is exactly the parse of the
brace-to-brace extraction; and the extraction decomposition at a concrete
text. -/
theorem C8_witness :
    parseAIResponse "\x7b\x7d" = some (JsonV.obj []) ∧
    parseAIResponse "nope \x7b\"k\": true\x7d" =
      ((regexExtract "nope \x7b\"k\": true\x7d").bind jsonParse) ∧
    (∃ pre suf : List Char,
       ("a\x7b1\x7d b" : String).toList = pre ++ ("\x7b1\x7d" : String).toList ++ suf ∧
       (∀ c ∈ pre, c ≠ '\x7b') ∧
       (∀ c ∈ suf, c ≠ '\x7d') ∧
       ("\x7b1\x7d" : String).toList.head? = some '\x7b') :=
  ⟨C8_amended_parse_pipeline.1 "\x7b\x7d" (JsonV.obj []) rfl,
   C8_amended_parse_pipeline.2.1 "nope \x7b\"k\": true\x7d" rfl,
   C8_amended_parse_pipeline.2.2 "a\x7b1\x7d b" "\x7b1\x7d" rfl⟩

end ItinGen
